import Mathlib

/-!
Shallow embedding of the name-to-dimension allocator in
pyro/contrib/funsor/handlers/runtime.py.

Python dicts (OrderedDict) are modelled as association lists with the
operations actually used by the source: membership test, get-with-default,
item assignment (replace in place or append) and pop-with-default.

Python objects are mutable and shared by reference: the frames on the
DimStack and the frames referenced from a frame's parents and iter_parents
tuples are the same objects.  This is modelled with an explicit heap
(a list of StackFrame values) in which a frame reference is an index;
the stack and the parent links store indices.
-/

section Dict

variable {α β : Type} [DecidableEq α]

/-- Dictionary lookup: d.get(k) / d[k]. -/
def dget : List (α × β) → α → Option β
  | [], _ => none
  | (k, v) :: t, k' => if k' = k then some v else dget t k'

/-- Dictionary membership test: k in d. -/
def dmem (l : List (α × β)) (k : α) : Bool :=
  (dget l k).isSome

/-- Dictionary item assignment d[k] = v: replace in place if the key is
present (OrderedDict keeps its position), otherwise append. -/
def dset : List (α × β) → α → β → List (α × β)
  | [], k, v => [(k, v)]
  | (k', v') :: t, k, v => if k = k' then (k, v) :: t else (k', v') :: dset t k v

/-- Dictionary removal d.pop(k, None): drop the entry for k if present. -/
def dpop : List (α × β) → α → List (α × β)
  | [], _ => []
  | (k', v') :: t, k => if k = k' then t else (k', v') :: dpop t k

end Dict

/-- StackFrame from runtime.py: a bidirectional name/dim map with static
links (heap indices) to parent and iteration-parent frames. -/
structure StackFrame where
  name_to_dim : List (String × Int)
  dim_to_name : List (Int × String)
  parents : List Nat
  iter_parents : List Nat
  keep : Bool
deriving DecidableEq, Repr

/-- The frame the DimStack constructor creates, and the default value of a
dangling heap reference. -/
def emptyFrame : StackFrame :=
  ⟨[], [], [], [], false⟩

/-- StackFrame.read: look the dim up in dim_to_name and the name up in
name_to_dim independently, defaulting to the arguments; found is true if
either lookup succeeds. -/
def StackFrame.read (f : StackFrame) (name : Option String) (dim : Option Int) :
    Option String × Option Int × Bool :=
  let found_name := match dim with
    | some d => match dget f.dim_to_name d with
      | some n => some n
      | none => name
    | none => name
  let found_dim := match name with
    | some n => match dget f.name_to_dim n with
      | some d => some d
      | none => dim
    | none => dim
  let found := (match name with
    | some n => dmem f.name_to_dim n
    | none => false) ||
    (match dim with
    | some d => dmem f.dim_to_name d
    | none => false)
  (found_name, found_dim, found)

/-- StackFrame.write: insert/overwrite both directions.  (The source
asserts both arguments are not None; here they are non-optional.) -/
def StackFrame.write (f : StackFrame) (name : String) (dim : Int) : StackFrame :=
  { f with
    dim_to_name := dset f.dim_to_name dim name
    name_to_dim := dset f.name_to_dim name dim }

/-- StackFrame.free: remove both directions if present (no-op otherwise). -/
def StackFrame.free (f : StackFrame) (name : String) (dim : Int) : StackFrame :=
  { f with
    dim_to_name := dpop f.dim_to_name dim
    name_to_dim := dpop f.name_to_dim name }

/-- DimType from runtime.py. -/
inductive DimType where
  | LOCAL
  | GLOBAL
  | VISIBLE
deriving DecidableEq, Repr

/-- DimRequest from runtime.py. -/
structure DimRequest where
  dim : Option Int
  dim_type : DimType
deriving DecidableEq, Repr

/-- NameRequest from runtime.py. -/
structure NameRequest where
  name : Option String
  dim_type : DimType
deriving DecidableEq, Repr

/-- A call to DimStack.request: the source asserts that exactly one of the
two arguments is a request object (NameRequest xor DimRequest); the other
argument is a raw value or None.  The invalid shapes are unrepresentable. -/
inductive Request where
  | nameReq (nr : NameRequest) (dim : Option Int)
  | dimReq (name : Option String) (dr : DimRequest)
deriving DecidableEq, Repr

/-- The unpacking at the top of DimStack.request:
name, dim and dim_type after the isinstance branches. -/
def Request.unpack : Request → Option String × Option Int × DimType
  | .dimReq n dr => (n, dr.dim, dr.dim_type)
  | .nameReq nr d => (nr.name, d, nr.dim_type)

/-- The name value after unpacking a request. -/
def Request.reqName (r : Request) : Option String := r.unpack.1

/-- The dim value after unpacking a request. -/
def Request.reqDim (r : Request) : Option Int := r.unpack.2.1

/-- The dim_type after unpacking a request. -/
def Request.policy (r : Request) : DimType := r.unpack.2.2

/-- Python exceptions raised by the modelled code: ValueError from _gendim,
TypeError from operations on None (negating None, comparing int with None),
AssertionError from assert statements. -/
inductive PyErr where
  | valueError
  | typeError
  | assertionError
deriving DecidableEq, Repr

/-- Whether an Except value is a success. -/
def exceptOk {ε αt : Type} : Except ε αt → Bool
  | .ok _ => true
  | .error _ => false

instance exceptDecEq {ε αt : Type} [DecidableEq ε] [DecidableEq αt] :
    DecidableEq (Except ε αt)
  | .error a, .error b =>
    if h : a = b then .isTrue (by rw [h])
    else .isFalse (by intro hc; cases hc; exact h rfl)
  | .error _, .ok _ => .isFalse (by intro hc; cases hc)
  | .ok _, .error _ => .isFalse (by intro hc; cases hc)
  | .ok a, .ok b =>
    if h : a = b then .isTrue (by rw [h])
    else .isFalse (by intro hc; cases hc; exact h rfl)

/-- DimStack from runtime.py.  heap is the object store (frame references
are indices); stack holds the frame references, index 0 the global frame,
the last element the current frame. -/
structure DimStack where
  heap : List StackFrame
  stack : List Nat
  first_available_dim : Option Int
  outermost : Option Nat
deriving DecidableEq, Repr

/-- DimStack.__init__: one empty global frame, first_available_dim = -1. -/
def DimStack.init : DimStack :=
  ⟨[emptyFrame], [0], some (-1), none⟩

/-- DimStack.MAX_DIM. -/
def DimStack.MAX_DIM : Int := -25

/-- Dereference a frame index (Python attribute access on the object). -/
def DimStack.frame (σ : DimStack) (i : Nat) : StackFrame :=
  σ.heap.getD i emptyFrame

/-- Reference to the current frame: self._stack[-1]. -/
def DimStack.currentId (σ : DimStack) : Nat :=
  σ.stack.getLastD 0

/-- Reference to the global frame: self._stack[0]. -/
def DimStack.globalId (σ : DimStack) : Nat :=
  σ.stack.headD 0

/-- DimStack.push: append a caller-constructed frame.  A new object is
allocated on the heap and its reference pushed. -/
def DimStack.push (σ : DimStack) (f : StackFrame) : DimStack :=
  { σ with heap := σ.heap ++ [f], stack := σ.stack ++ [σ.heap.length] }

/-- DimStack.pop: assert len(self._stack) > 1, then remove and return the
top frame. -/
def DimStack.pop (σ : DimStack) : Except PyErr (StackFrame × DimStack) :=
  if 1 < σ.stack.length then
    .ok (σ.frame σ.currentId, { σ with stack := σ.stack.dropLast })
  else
    .error .assertionError

/-- DimStack.set_first_available_dim: assert dim is None or
MAX_DIM < dim < 0; swap in the new watermark and return the old one. -/
def DimStack.set_first_available_dim (σ : DimStack) (dim : Option Int) :
    Except PyErr (Option Int × DimStack) :=
  if (match dim with
      | none => true
      | some d => decide (DimStack.MAX_DIM < d) && decide (d < 0)) then
    .ok (σ.first_available_dim, { σ with first_available_dim := dim })
  else
    .error .assertionError

/-- The frame references making up DimStack.current_env:
(global_frame, current_frame) + current_frame.iter_parents
+ current_frame.parents. -/
def DimStack.envIds (σ : DimStack) : List Nat :=
  σ.globalId :: σ.currentId ::
    ((σ.frame σ.currentId).iter_parents ++ (σ.frame σ.currentId).parents)

/-- DimStack.current_env as the list of frame values. -/
def DimStack.envFrames (σ : DimStack) : List StackFrame :=
  σ.envIds.map σ.frame

/-- Mutate the frame object behind reference i with StackFrame.write. -/
def DimStack.writeAt (σ : DimStack) (i : Nat) (n : String) (d : Int) : DimStack :=
  { σ with heap := σ.heap.set i ((σ.frame i).write n d) }

/-- Mutate the frame object behind reference i with StackFrame.free. -/
def DimStack.freeAt (σ : DimStack) (i : Nat) (n : String) (d : Int) : DimStack :=
  { σ with heap := σ.heap.set i ((σ.frame i).free n d) }

/-- The write_frames chosen in DimStack.request:
(global_frame,) if dim_type != LOCAL else
(current_frame,) + (current_frame.parents if current_frame.keep else ()). -/
def DimStack.writeIds (σ : DimStack) (t : DimType) : List Nat :=
  if t ≠ DimType.LOCAL then [σ.globalId]
  else σ.currentId ::
    (if (σ.frame σ.currentId).keep then (σ.frame σ.currentId).parents else [])

/-- The commit loop of DimStack.request: write the fresh pair into every
chosen frame. -/
def DimStack.commit (σ : DimStack) (n : String) (d : Int) (t : DimType) : DimStack :=
  (σ.writeIds t).foldl (fun s i => s.writeAt i n d) σ

/-- The while-loop guard of _gendim:
any(fresh_dim in p.dim_to_name for p in conflict_frames). -/
def occupiedDim (frames : List StackFrame) (d : Int) : Bool :=
  frames.any (fun p => dmem p.dim_to_name d)

/-- All keys of the dim_to_name maps of a list of frames (with
multiplicity); used only to bound the fresh-dim search. -/
def dimKeys (frames : List StackFrame) : List Int :=
  (frames.map (fun p => p.dim_to_name.map Prod.fst)).flatten

/-- Number of dim_to_name entries with key at most d; an upper bound on the
number of decrements the fresh-dim search can still make from d. -/
def belowCount (frames : List StackFrame) (d : Int) : Nat :=
  ((dimKeys frames).filter (fun e => decide (e ≤ d))).length

/-- The decrement loop of _gendim, with explicit fuel. -/
def findFreshAux (frames : List StackFrame) : Nat → Int → Int
  | 0, d => d
  | n + 1, d => if occupiedDim frames d then findFreshAux frames n (d - 1) else d

/-- The fresh-dim search of _gendim: decrement the candidate while some
conflict frame has an entry for it in dim_to_name.  belowCount frames d is
enough fuel for the loop to reach its exit condition (see
findFresh_eq_loop, which recovers the source's loop equation). -/
def findFresh (frames : List StackFrame) (d : Int) : Int :=
  findFreshAux frames (belowCount frames d) d

/-- DimStack._gendim.  Deviations from success are Python exceptions:
formatting -None raises TypeError, the explicit raise is ValueError, and
comparing an int against a None watermark raises TypeError. -/
def DimStack.gendim (σ : DimStack) (nreq : NameRequest) (dreq : DimRequest) :
    Except PyErr (String × Int) :=
  let dim_type := dreq.dim_type
  match (match nreq.name with
    | some n => Except.ok n
    | none => match dreq.dim with
      | some d => Except.ok ("_pyro_dim_" ++ toString (-d))
      | none => Except.error PyErr.typeError) with
  | .error e => .error e
  | .ok fresh_name =>
    let conflict := σ.envFrames
    let fresh_dim : Int := match dreq.dim with
      | none =>
        let start : Int :=
          if dim_type = DimType.VISIBLE then -1
          else σ.first_available_dim.getD (-1)
        findFresh conflict start
      | some d => d
    if fresh_dim < DimStack.MAX_DIM then .error .valueError
    else if occupiedDim conflict fresh_dim then .error .valueError
    else if dim_type = DimType.VISIBLE then
      match σ.first_available_dim with
      | none => .error .typeError
      | some fad =>
        if fresh_dim ≤ fad then .error .valueError
        else .ok (fresh_name, fresh_dim)
    else .ok (fresh_name, fresh_dim)

/-- The read loop of DimStack.request: thread name and dim through
frame.read over the environment, stopping at the first frame with
found = true. -/
def lookupLoop (frames : List StackFrame) (name : Option String) (dim : Option Int) :
    Option String × Option Int × Bool :=
  match frames with
  | [] => (name, dim, false)
  | f :: rest =>
    match f.read name dim with
    | (n', d', true) => (n', d', true)
    | (n', d', false) => lookupLoop rest n' d'

/-- DimStack.request: unpack the request, try to resolve it against the
current environment, otherwise generate a fresh binding with _gendim and
commit it into the policy-chosen frames. -/
def DimStack.request (σ : DimStack) (req : Request) :
    Except PyErr ((Option String × Option Int) × DimStack) :=
  match lookupLoop σ.envFrames req.reqName req.reqDim with
  | (n', d', true) => .ok ((n', d'), σ)
  | (n', d', false) =>
    match σ.gendim ⟨n', req.policy⟩ ⟨d', req.policy⟩ with
    | .error e => .error e
    | .ok (n, d) => .ok ((some n, some d), σ.commit n d req.policy)

/-- Referential integrity of a DimStack: the stack is never empty and every
frame reference (on the stack or in a frame's links) points into the heap.
Python guarantees this by construction: references always denote objects. -/
def WF (σ : DimStack) : Prop :=
  σ.stack ≠ [] ∧
  (∀ i ∈ σ.stack, i < σ.heap.length) ∧
  (∀ f ∈ σ.heap,
    (∀ i ∈ f.parents, i < σ.heap.length) ∧
    (∀ i ∈ f.iter_parents, i < σ.heap.length))

instance : DecidablePred WF := fun σ => by
  unfold WF; infer_instance

/-- The exact-inverse (bijection) property of a frame's two maps, as the
spec states it: name_to_dim[n] == s iff dim_to_name[s] == n. -/
def FrameInv (f : StackFrame) : Prop :=
  ∀ (n : String) (s : Int), dget f.name_to_dim n = some s ↔ dget f.dim_to_name s = some n

/-- Key uniqueness of a frame's maps (automatic for Python dicts). -/
def FrameNodup (f : StackFrame) : Prop :=
  (f.name_to_dim.map Prod.fst).Nodup ∧ (f.dim_to_name.map Prod.fst).Nodup

instance : DecidablePred FrameNodup := fun f => by
  unfold FrameNodup; infer_instance

section DictLemmas

variable {α β : Type} [DecidableEq α]

theorem dget_dset_self (l : List (α × β)) (k : α) (v : β) :
    dget (dset l k v) k = some v := by
  induction l with
  | nil => simp [dset, dget]
  | cons p t ih =>
    obtain ⟨k', v'⟩ := p
    by_cases h : k = k' <;> simp [dset, dget, h, ih]

theorem dget_dset_ne (l : List (α × β)) (k k' : α) (v : β) (h : k' ≠ k) :
    dget (dset l k v) k' = dget l k' := by
  induction l with
  | nil => simp [dset, dget, h]
  | cons p t ih =>
    obtain ⟨a, b⟩ := p
    by_cases ha : k = a
    · subst ha
      simp [dset, dget, h]
    · by_cases hb : k' = a <;> simp [dset, dget, ha, hb, ih]

theorem dset_dset_self (l : List (α × β)) (k : α) (v : β) :
    dset (dset l k v) k v = dset l k v := by
  induction l with
  | nil => simp [dset]
  | cons p t ih =>
    obtain ⟨a, b⟩ := p
    by_cases ha : k = a <;> simp [dset, ha, ih]

theorem dget_dpop_ne (l : List (α × β)) (k k' : α) (h : k' ≠ k) :
    dget (dpop l k) k' = dget l k' := by
  induction l with
  | nil => simp [dpop]
  | cons p t ih =>
    obtain ⟨a, b⟩ := p
    by_cases ha : k = a
    · subst ha
      simp [dpop, dget, h]
    · by_cases hb : k' = a <;> simp [dpop, dget, ha, hb, ih]

theorem dget_mem_keys (l : List (α × β)) (k : α) (v : β) (h : dget l k = some v) :
    k ∈ l.map Prod.fst := by
  induction l with
  | nil => simp [dget] at h
  | cons p t ih =>
    obtain ⟨a, b⟩ := p
    by_cases ha : k = a
    · simp [ha]
    · simp [dget, ha] at h
      simp [ih h]

theorem dget_dpop_self (l : List (α × β)) (k : α)
    (hnd : (l.map Prod.fst).Nodup) : dget (dpop l k) k = none := by
  induction l with
  | nil => simp [dpop, dget]
  | cons p t ih =>
    obtain ⟨a, b⟩ := p
    simp only [List.map_cons, List.nodup_cons] at hnd
    by_cases ha : k = a
    · subst ha
      simp only [dpop, if_pos rfl]
      cases hg : dget t k with
      | none => exact hg
      | some v => exact absurd (dget_mem_keys t k v hg) hnd.1
    · simp [dpop, dget, ha, ih hnd.2]

theorem dpop_not_mem (l : List (α × β)) (k : α) (h : dget l k = none) :
    dpop l k = l := by
  induction l with
  | nil => simp [dpop]
  | cons p t ih =>
    obtain ⟨a, b⟩ := p
    by_cases ha : k = a
    · simp [dget, ha] at h
    · simp [dget, ha] at h
      simp [dpop, ha, ih h]

theorem dmem_false_iff (l : List (α × β)) (k : α) :
    dmem l k = false ↔ dget l k = none := by
  unfold dmem
  cases h : dget l k <;> simp [h]

theorem dmem_true_iff (l : List (α × β)) (k : α) :
    dmem l k = true ↔ ∃ v, dget l k = some v := by
  unfold dmem
  cases h : dget l k <;> simp [h]

end DictLemmas

section SearchLemmas

theorem length_filter_imp (L : List Int) (p q : Int → Bool)
    (h : ∀ e, p e = true → q e = true) :
    (L.filter p).length ≤ (L.filter q).length := by
  induction L with
  | nil => simp
  | cons a t ih =>
    by_cases hp : p a = true
    · simp [List.filter_cons, hp, h a hp, Nat.succ_le_succ ih]
    · simp only [List.filter_cons, Bool.not_eq_true] at hp ⊢
      rw [hp]
      by_cases hq : q a = true <;> simp [hq] <;> omega

theorem length_filter_pred_lt (L : List Int) (d : Int) (hd : d ∈ L) :
    (L.filter (fun e => decide (e ≤ d - 1))).length <
      (L.filter (fun e => decide (e ≤ d))).length := by
  induction L with
  | nil => cases hd
  | cons a t ih =>
    rcases List.mem_cons.mp hd with ha | ha
    · rw [← ha]
      have h1 : (decide (d ≤ d - 1)) = false := by simp
      have h2 : (decide (d ≤ d)) = true := by simp
      simp only [List.filter_cons, h1, h2, Bool.false_eq_true, if_true, if_false,
        List.length_cons]
      have := length_filter_imp t (fun e => decide (e ≤ d - 1))
        (fun e => decide (e ≤ d)) (by intro e he; simp at he ⊢; omega)
      omega
    · have h := ih ha
      simp only [List.filter_cons]
      by_cases h1 : (decide (a ≤ d - 1)) = true
      · have h2 : (decide (a ≤ d)) = true := by simp at h1 ⊢; omega
        simp only [h1, h2, if_pos, List.length_cons]
        omega
      · simp only [Bool.not_eq_true] at h1
        rw [h1]
        by_cases h2 : (decide (a ≤ d)) = true <;> simp [h2] <;> omega

theorem occupied_mem_dimKeys (frames : List StackFrame) (d : Int)
    (h : occupiedDim frames d = true) : d ∈ dimKeys frames := by
  rcases List.any_eq_true.mp h with ⟨f, hf, hdm⟩
  rcases (dmem_true_iff _ _).mp hdm with ⟨v, hv⟩
  have : d ∈ f.dim_to_name.map Prod.fst := dget_mem_keys _ _ _ hv
  simp only [dimKeys, List.mem_flatten]
  exact ⟨f.dim_to_name.map Prod.fst, List.mem_map_of_mem _ hf, this⟩

theorem belowCount_pos (frames : List StackFrame) (d : Int)
    (h : occupiedDim frames d = true) : 0 < belowCount frames d := by
  have hd := occupied_mem_dimKeys frames d h
  simp only [belowCount]
  have : d ∈ (dimKeys frames).filter (fun e => decide (e ≤ d)) :=
    List.mem_filter.mpr ⟨hd, by simp⟩
  exact List.length_pos.mpr (List.ne_nil_of_mem this)

theorem belowCount_pred_lt (frames : List StackFrame) (d : Int)
    (h : occupiedDim frames d = true) :
    belowCount frames (d - 1) < belowCount frames d := by
  exact length_filter_pred_lt _ _ (occupied_mem_dimKeys frames d h)

theorem findFreshAux_spec (frames : List StackFrame) :
    ∀ (n : Nat) (d : Int), belowCount frames d ≤ n →
      occupiedDim frames (findFreshAux frames n d) = false ∧
      findFreshAux frames n d ≤ d ∧
      ∀ e, findFreshAux frames n d < e → e ≤ d → occupiedDim frames e = true := by
  intro n
  induction n with
  | zero =>
    intro d hn
    by_cases h : occupiedDim frames d = true
    · exact absurd hn (by have := belowCount_pos frames d h; omega)
    · simp only [Bool.not_eq_true] at h
      refine ⟨h, le_refl d, fun e h1 h2 => ?_⟩
      simp only [findFreshAux] at h1
      exact absurd h2 (by omega)
  | succ m ih =>
    intro d hn
    by_cases h : occupiedDim frames d = true
    · have hlt := belowCount_pred_lt frames d h
      have hm : belowCount frames (d - 1) ≤ m := by omega
      have spec := ih (d - 1) hm
      simp only [findFreshAux, h, if_pos]
      refine ⟨spec.1, by omega, fun e h1 h2 => ?_⟩
      by_cases he : e ≤ d - 1
      · exact spec.2.2 e h1 he
      · have : e = d := by omega
        rw [this]; exact h
    · simp only [Bool.not_eq_true] at h
      have hred : findFreshAux frames (m + 1) d = d := by
        simp [findFreshAux, h]
      rw [hred]
      exact ⟨h, le_refl d, fun e h1 h2 => absurd h2 (by omega)⟩

theorem findFresh_spec (frames : List StackFrame) (d : Int) :
    occupiedDim frames (findFresh frames d) = false ∧
    findFresh frames d ≤ d ∧
    ∀ e, findFresh frames d < e → e ≤ d → occupiedDim frames e = true :=
  findFreshAux_spec frames (belowCount frames d) d (le_refl _)

theorem findFreshAux_congr (frames : List StackFrame) :
    ∀ (n m : Nat) (d : Int), belowCount frames d ≤ n → belowCount frames d ≤ m →
      findFreshAux frames n d = findFreshAux frames m d := by
  intro n
  induction n with
  | zero =>
    intro m d hn hm
    by_cases h : occupiedDim frames d = true
    · exact absurd hn (by have := belowCount_pos frames d h; omega)
    · simp only [Bool.not_eq_true] at h
      cases m <;> simp [findFreshAux, h]
  | succ k ih =>
    intro m d hn hm
    by_cases h : occupiedDim frames d = true
    · have hpos := belowCount_pos frames d h
      have hlt := belowCount_pred_lt frames d h
      cases m with
      | zero => omega
      | succ m' =>
        simp only [findFreshAux, h, if_pos]
        exact ih m' (d - 1) (by omega) (by omega)
    · simp only [Bool.not_eq_true] at h
      cases m <;> simp [findFreshAux, h]

/-- findFresh satisfies the defining equation of the source's while loop:
decrement while the candidate dim is present in some conflict frame's
dim_to_name. -/
theorem findFresh_eq_loop (frames : List StackFrame) (d : Int) :
    findFresh frames d =
      if occupiedDim frames d then findFresh frames (d - 1) else d := by
  by_cases h : occupiedDim frames d = true
  · have hpos := belowCount_pos frames d h
    have hlt := belowCount_pred_lt frames d h
    simp only [h, if_pos]
    unfold findFresh
    obtain ⟨k, hk⟩ : ∃ k, belowCount frames d = k + 1 := ⟨belowCount frames d - 1, by omega⟩
    rw [hk]
    simp only [findFreshAux, h, if_pos]
    exact findFreshAux_congr frames k (belowCount frames (d - 1)) (d - 1)
      (by omega) (le_refl _)
  · simp only [Bool.not_eq_true] at h
    simp only [h, Bool.false_eq_true, if_neg, not_false_eq_true]
    unfold findFresh
    cases hk : belowCount frames d <;> simp [findFreshAux, h]

end SearchLemmas

section LookupLemmas

theorem read_not_found (f : StackFrame) (name : Option String) (dim : Option Int)
    (h : (f.read name dim).2.2 = false) : f.read name dim = (name, dim, false) := by
  cases name with
  | none =>
    cases dim with
    | none => rfl
    | some d =>
      have hm : dmem f.dim_to_name d = false := by
        simpa [StackFrame.read] using h
      have hg := (dmem_false_iff _ _).mp hm
      simp [StackFrame.read, hg, hm]
  | some n =>
    cases dim with
    | none =>
      have hm : dmem f.name_to_dim n = false := by
        simpa [StackFrame.read] using h
      have hg := (dmem_false_iff _ _).mp hm
      simp [StackFrame.read, hg, hm]
    | some d =>
      have hm : dmem f.name_to_dim n = false ∧ dmem f.dim_to_name d = false := by
        have := h
        simp [StackFrame.read] at this
        exact this
      have hg1 := (dmem_false_iff _ _).mp hm.1
      have hg2 := (dmem_false_iff _ _).mp hm.2
      simp [StackFrame.read, hg1, hg2, hm.1, hm.2]

theorem lookupLoop_cons_pass (f : StackFrame) (rest : List StackFrame)
    (name : Option String) (dim : Option Int) (h : (f.read name dim).2.2 = false) :
    lookupLoop (f :: rest) name dim = lookupLoop rest name dim := by
  have hr := read_not_found f name dim h
  simp only [lookupLoop, hr]

theorem lookupLoop_cons_found_name (f : StackFrame) (rest : List StackFrame)
    (nm : String) (fd : Int) (h : dget f.name_to_dim nm = some fd) :
    lookupLoop (f :: rest) (some nm) none = (some nm, some fd, true) := by
  have hr : f.read (some nm) none = (some nm, some fd, true) := by
    simp [StackFrame.read, h, dmem]
  simp only [lookupLoop, hr]

theorem lookupLoop_false (frames : List StackFrame) (name n' : Option String)
    (dim d' : Option Int) (h : lookupLoop frames name dim = (n', d', false)) :
    n' = name ∧ d' = dim ∧ ∀ f ∈ frames, (f.read name dim).2.2 = false := by
  induction frames generalizing name dim with
  | nil =>
    simp only [lookupLoop, Prod.mk.injEq] at h
    exact ⟨h.1.symm, h.2.1.symm, by simp⟩
  | cons f rest ih =>
    rcases hr : f.read name dim with ⟨a, b, c⟩
    cases c with
    | true =>
      simp only [lookupLoop, hr, Prod.mk.injEq] at h
      exact absurd h.2.2 (by simp)
    | false =>
      have hrn := read_not_found f name dim (by rw [hr])
      rw [hrn] at hr
      have hab : a = name ∧ b = dim := by
        have h1 := congrArg Prod.fst hr
        have h2 := congrArg (fun p => p.2.1) hr
        exact ⟨h1.symm, h2.symm⟩
      rcases hab with ⟨rfl, rfl⟩
      have hrec : lookupLoop rest a b = (n', d', false) := by
        simp only [lookupLoop, hrn] at h
        exact h
      rcases ih a b hrec with ⟨h1, h2, h3⟩
      refine ⟨h1, h2, fun g hg => ?_⟩
      rcases List.mem_cons.mp hg with rfl | hg'
      · rw [hrn]
      · exact h3 g hg'

end LookupLemmas

section HeapLemmas

theorem write_write (f : StackFrame) (n : String) (d : Int) :
    (f.write n d).write n d = f.write n d := by
  simp [StackFrame.write, dset_dset_self]

theorem write_parents (f : StackFrame) (n : String) (d : Int) :
    (f.write n d).parents = f.parents := rfl

theorem write_iter_parents (f : StackFrame) (n : String) (d : Int) :
    (f.write n d).iter_parents = f.iter_parents := rfl

theorem write_keep (f : StackFrame) (n : String) (d : Int) :
    (f.write n d).keep = f.keep := rfl

theorem writeAt_stack (σ : DimStack) (i : Nat) (n : String) (d : Int) :
    (σ.writeAt i n d).stack = σ.stack := rfl

theorem writeAt_fad (σ : DimStack) (i : Nat) (n : String) (d : Int) :
    (σ.writeAt i n d).first_available_dim = σ.first_available_dim := rfl

theorem writeAt_heap_length (σ : DimStack) (i : Nat) (n : String) (d : Int) :
    (σ.writeAt i n d).heap.length = σ.heap.length := by
  simp [DimStack.writeAt]

theorem frame_writeAt_ne (σ : DimStack) (i j : Nat) (n : String) (d : Int)
    (h : j ≠ i) : (σ.writeAt i n d).frame j = σ.frame j := by
  simp only [DimStack.writeAt, DimStack.frame, List.getD_eq_getElem?_getD]
  rw [List.getElem?_set_ne (by omega)]

theorem frame_writeAt_self (σ : DimStack) (i : Nat) (n : String) (d : Int)
    (h : i < σ.heap.length) : (σ.writeAt i n d).frame i = (σ.frame i).write n d := by
  simp only [DimStack.writeAt, DimStack.frame]
  rw [List.getD_eq_getElem?_getD, List.getElem?_set_self (by omega)]
  simp

theorem frame_writeAt_cases (σ : DimStack) (i j : Nat) (n : String) (d : Int) :
    (σ.writeAt i n d).frame j = σ.frame j ∨
      (σ.writeAt i n d).frame j = (σ.frame j).write n d := by
  by_cases hij : j = i
  · subst hij
    by_cases hl : j < σ.heap.length
    · exact Or.inr (frame_writeAt_self σ j n d hl)
    · left
      simp only [DimStack.writeAt, DimStack.frame]
      rw [List.set_eq_of_length_le (by omega)]
  · exact Or.inl (frame_writeAt_ne σ i j n d hij)

theorem foldl_writeAt_stack (W : List Nat) (σ : DimStack) (n : String) (d : Int) :
    (W.foldl (fun s i => s.writeAt i n d) σ).stack = σ.stack := by
  induction W generalizing σ with
  | nil => rfl
  | cons j T ih => simp [List.foldl_cons, ih, writeAt_stack]

theorem foldl_writeAt_fad (W : List Nat) (σ : DimStack) (n : String) (d : Int) :
    (W.foldl (fun s i => s.writeAt i n d) σ).first_available_dim =
      σ.first_available_dim := by
  induction W generalizing σ with
  | nil => rfl
  | cons j T ih => simp [List.foldl_cons, ih, writeAt_fad]

theorem foldl_writeAt_heap_length (W : List Nat) (σ : DimStack) (n : String) (d : Int) :
    (W.foldl (fun s i => s.writeAt i n d) σ).heap.length = σ.heap.length := by
  induction W generalizing σ with
  | nil => rfl
  | cons j T ih => simp [List.foldl_cons, ih, writeAt_heap_length]

theorem frame_foldl_not_mem (W : List Nat) (σ : DimStack) (n : String) (d : Int)
    (i : Nat) (h : i ∉ W) :
    (W.foldl (fun s j => s.writeAt j n d) σ).frame i = σ.frame i := by
  induction W generalizing σ with
  | nil => rfl
  | cons j T ih =>
    simp only [List.mem_cons, not_or] at h
    simp only [List.foldl_cons]
    rw [ih _ h.2, frame_writeAt_ne σ j i n d h.1]

theorem frame_foldl_cases (W : List Nat) (σ : DimStack) (n : String) (d : Int)
    (i : Nat) :
    (W.foldl (fun s j => s.writeAt j n d) σ).frame i = σ.frame i ∨
      (W.foldl (fun s j => s.writeAt j n d) σ).frame i = (σ.frame i).write n d := by
  induction W generalizing σ with
  | nil => exact Or.inl rfl
  | cons j T ih =>
    simp only [List.foldl_cons]
    rcases frame_writeAt_cases σ j i n d with h1 | h1 <;>
      rcases ih (σ.writeAt j n d) with h2 | h2 <;> rw [h1] at h2
    · exact Or.inl h2
    · exact Or.inr h2
    · exact Or.inr h2
    · rw [write_write] at h2
      exact Or.inr h2

theorem frame_foldl_mem (W : List Nat) (σ : DimStack) (n : String) (d : Int)
    (i : Nat) (hi : i ∈ W) (hl : i < σ.heap.length) :
    (W.foldl (fun s j => s.writeAt j n d) σ).frame i = (σ.frame i).write n d := by
  induction W generalizing σ with
  | nil => cases hi
  | cons j T ih =>
    simp only [List.foldl_cons]
    by_cases hij : i = j
    · subst hij
      have hself := frame_writeAt_self σ i n d hl
      rcases frame_foldl_cases T (σ.writeAt i n d) n d i with h2 | h2 <;>
        rw [h2, hself]
      rw [write_write]
    · have hiT : i ∈ T := by
        rcases List.mem_cons.mp hi with h | h
        · exact absurd h hij
        · exact h
      have hl' : i < (σ.writeAt j n d).heap.length := by
        rw [writeAt_heap_length]; exact hl
      rw [ih (σ.writeAt j n d) hiT hl', frame_writeAt_ne σ j i n d hij]

theorem frame_writeAt_parents (σ : DimStack) (i j : Nat) (n : String) (d : Int) :
    ((σ.writeAt j n d).frame i).parents = (σ.frame i).parents ∧
      ((σ.writeAt j n d).frame i).iter_parents = (σ.frame i).iter_parents ∧
      ((σ.writeAt j n d).frame i).keep = (σ.frame i).keep := by
  rcases frame_writeAt_cases σ j i n d with h | h <;> rw [h] <;>
    simp [write_parents, write_iter_parents, write_keep]

theorem frame_foldl_parents (W : List Nat) (σ : DimStack) (n : String) (d : Int)
    (i : Nat) :
    ((W.foldl (fun s j => s.writeAt j n d) σ).frame i).parents = (σ.frame i).parents ∧
      ((W.foldl (fun s j => s.writeAt j n d) σ).frame i).iter_parents =
        (σ.frame i).iter_parents := by
  rcases frame_foldl_cases W σ n d i with h | h <;> rw [h] <;>
    simp [write_parents, write_iter_parents]

theorem envIds_foldl (W : List Nat) (σ : DimStack) (n : String) (d : Int) :
    (W.foldl (fun s j => s.writeAt j n d) σ).envIds = σ.envIds := by
  have hs := foldl_writeAt_stack W σ n d
  have hg : (W.foldl (fun s j => s.writeAt j n d) σ).globalId = σ.globalId := by
    simp [DimStack.globalId, hs]
  have hc : (W.foldl (fun s j => s.writeAt j n d) σ).currentId = σ.currentId := by
    simp [DimStack.currentId, hs]
  have hp := frame_foldl_parents W σ n d σ.currentId
  simp only [DimStack.envIds, hg, hc, hp.1, hp.2]

theorem commit_envIds (σ : DimStack) (n : String) (d : Int) (t : DimType) :
    (σ.commit n d t).envIds = σ.envIds :=
  envIds_foldl _ σ n d

theorem commit_stack (σ : DimStack) (n : String) (d : Int) (t : DimType) :
    (σ.commit n d t).stack = σ.stack :=
  foldl_writeAt_stack _ σ n d

theorem commit_heap_length (σ : DimStack) (n : String) (d : Int) (t : DimType) :
    (σ.commit n d t).heap.length = σ.heap.length :=
  foldl_writeAt_heap_length _ σ n d

end HeapLemmas

section WFLemmas

theorem currentId_mem (σ : DimStack) (h : σ.stack ≠ []) : σ.currentId ∈ σ.stack := by
  unfold DimStack.currentId
  rw [List.getLastD_eq_getLast?, List.getLast?_eq_getLast σ.stack h]
  exact Option.getD_some ▸ List.getLast_mem h

theorem globalId_mem (σ : DimStack) (h : σ.stack ≠ []) : σ.globalId ∈ σ.stack := by
  unfold DimStack.globalId
  cases hs : σ.stack with
  | nil => exact absurd hs h
  | cons a t => simp

theorem WF.currentId_lt (σ : DimStack) (h : WF σ) : σ.currentId < σ.heap.length :=
  h.2.1 _ (currentId_mem σ h.1)

theorem WF.globalId_lt (σ : DimStack) (h : WF σ) : σ.globalId < σ.heap.length :=
  h.2.1 _ (globalId_mem σ h.1)

theorem frame_mem_heap (σ : DimStack) (i : Nat) (h : i < σ.heap.length) :
    σ.frame i ∈ σ.heap := by
  unfold DimStack.frame
  rw [List.getD_eq_getElem?_getD, List.getElem?_eq_getElem h]
  exact Option.getD_some ▸ List.getElem_mem h

theorem WF.parents_lt (σ : DimStack) (h : WF σ) (i : Nat) (hi : i < σ.heap.length) :
    ∀ j ∈ (σ.frame i).parents, j < σ.heap.length :=
  (h.2.2 _ (frame_mem_heap σ i hi)).1

end WFLemmas

section GendimLemmas

theorem gendim_tail_ok (σ : DimStack) (t : DimType) (fn : String) (fd : Int)
    (n : String) (d : Int)
    (h : (if fd < DimStack.MAX_DIM then (Except.error PyErr.valueError : Except PyErr (String × Int))
          else if occupiedDim σ.envFrames fd then .error .valueError
          else if t = DimType.VISIBLE then
            match σ.first_available_dim with
            | none => .error .typeError
            | some fad => if fd ≤ fad then .error .valueError else .ok (fn, fd)
          else .ok (fn, fd)) = .ok (n, d)) :
    n = fn ∧ d = fd ∧ DimStack.MAX_DIM ≤ d ∧ occupiedDim σ.envFrames d = false ∧
      (t = DimType.VISIBLE → ∃ fad, σ.first_available_dim = some fad ∧ fad < d) := by
  split_ifs at h with h1 h2 h3
  · cases hfad : σ.first_available_dim with
    | none => rw [hfad] at h; simp at h
    | some fad =>
      rw [hfad] at h
      simp only at h
      split_ifs at h with h4
      simp only [Except.ok.injEq, Prod.mk.injEq] at h
      obtain ⟨hfn, hfd⟩ := h
      subst hfn; subst hfd
      exact ⟨rfl, rfl, by omega, by simpa using h2,
        fun _ => ⟨fad, rfl, by omega⟩⟩
  · simp only [Except.ok.injEq, Prod.mk.injEq] at h
    obtain ⟨hfn, hfd⟩ := h
    subst hfn; subst hfd
    exact ⟨rfl, rfl, by omega, by simpa using h2, fun hv => absurd hv h3⟩

theorem gendim_ok_parts (σ : DimStack) (nr : NameRequest) (dr : DimRequest)
    (n : String) (d : Int) (h : σ.gendim nr dr = .ok (n, d)) :
    DimStack.MAX_DIM ≤ d ∧
    occupiedDim σ.envFrames d = false ∧
    (dr.dim_type = DimType.VISIBLE →
      ∃ fad, σ.first_available_dim = some fad ∧ fad < d) ∧
    (∀ nm, nr.name = some nm → n = nm) ∧
    (∀ d0, dr.dim = some d0 → d = d0) ∧
    (dr.dim = none →
      d = findFresh σ.envFrames
        (if dr.dim_type = DimType.VISIBLE then -1
         else σ.first_available_dim.getD (-1))) := by
  unfold DimStack.gendim at h
  cases hnn : nr.name with
  | none =>
    cases hdd : dr.dim with
    | none => rw [hnn, hdd] at h; simp at h
    | some d0 =>
      rw [hnn, hdd] at h
      simp only at h
      have hp := gendim_tail_ok σ dr.dim_type _ d0 n d h
      refine ⟨by omega, hp.2.2.2.1, hp.2.2.2.2, ?_, ?_, ?_⟩
      · intro nm hnm; exact absurd hnm (by simp)
      · intro d1 hd1
        have h5 := hp.2.1
        injection hd1 with hd2
        omega
      · intro hd1; exact absurd hd1 (by simp)
  | some nm0 =>
    cases hdd : dr.dim with
    | none =>
      rw [hnn, hdd] at h
      simp only at h
      have hp := gendim_tail_ok σ dr.dim_type nm0 _ n d h
      refine ⟨by omega, hp.2.2.2.1, hp.2.2.2.2, ?_, ?_, ?_⟩
      · intro nm hnm
        injection hnm with h6
        rw [← h6]
        exact hp.1
      · intro d1 hd1; exact absurd hd1 (by simp)
      · intro _
        exact hp.2.1
    | some d0 =>
      rw [hnn, hdd] at h
      simp only at h
      have hp := gendim_tail_ok σ dr.dim_type nm0 d0 n d h
      refine ⟨by omega, hp.2.2.2.1, hp.2.2.2.2, ?_, ?_, ?_⟩
      · intro nm hnm
        injection hnm with h6
        rw [← h6]
        exact hp.1
      · intro d1 hd1
        have h5 := hp.2.1
        injection hd1 with hd2
        omega
      · intro hd1; exact absurd hd1 (by simp)

end GendimLemmas

section RequestLemmas

theorem request_ok_elim (σ : DimStack) (req : Request)
    (res : Option String × Option Int) (σ' : DimStack)
    (h : σ.request req = .ok (res, σ')) :
    ((lookupLoop σ.envFrames req.reqName req.reqDim).2.2 = true ∧
      res = ((lookupLoop σ.envFrames req.reqName req.reqDim).1,
        (lookupLoop σ.envFrames req.reqName req.reqDim).2.1) ∧ σ' = σ) ∨
    ((lookupLoop σ.envFrames req.reqName req.reqDim).2.2 = false ∧
      ∃ n d, σ.gendim ⟨req.reqName, req.policy⟩ ⟨req.reqDim, req.policy⟩ = .ok (n, d) ∧
        res = (some n, some d) ∧ σ' = σ.commit n d req.policy) := by
  unfold DimStack.request at h
  rcases hl : lookupLoop σ.envFrames req.reqName req.reqDim with ⟨a, b, c⟩
  rw [hl] at h
  cases c with
  | true =>
    simp only [Except.ok.injEq, Prod.mk.injEq] at h
    exact Or.inl ⟨rfl, h.1.symm, h.2.symm⟩
  | false =>
    obtain ⟨ha, hb, _⟩ := lookupLoop_false _ _ _ _ _ hl
    subst ha; subst hb
    have h2 : (match σ.gendim ⟨req.reqName, req.policy⟩ ⟨req.reqDim, req.policy⟩ with
      | .error e => (Except.error e : Except PyErr ((Option String × Option Int) × DimStack))
      | .ok (n, d) => .ok ((some n, some d), σ.commit n d req.policy)) =
        .ok (res, σ') := h
    cases hg : σ.gendim ⟨req.reqName, req.policy⟩ ⟨req.reqDim, req.policy⟩ with
    | error e => rw [hg] at h2; simp at h2
    | ok nd =>
      obtain ⟨n, d⟩ := nd
      rw [hg] at h2
      simp only [Except.ok.injEq, Prod.mk.injEq] at h2
      exact Or.inr ⟨rfl, n, d, rfl, h2.1.symm, h2.2.symm⟩

end RequestLemmas

section SharedClaimLemmas

theorem read_found_by_name (f : StackFrame) (nm : String) :
    (f.read (some nm) none).2.2 = dmem f.name_to_dim nm := by
  simp [StackFrame.read]

theorem toString_neg_of_neg (d : Int) (hd : d < 0) :
    toString (-d) = toString d.natAbs := by
  have h1 : -d = ((d.natAbs : Nat) : Int) := by omega
  rw [h1]
  rfl

end SharedClaimLemmas

/-- Claim C1 (amended).  The exact-inverse invariant between name_to_dim and
dim_to_name is NOT maintained across arbitrary write/free sequences (see
claim1_counterexample: rebinding a bound name leaves a dangling reverse
entry).  What holds is: write re-establishes the bijection provided neither
the name nor the slot is currently bound to a different partner, and free
preserves it provided it is called on a currently-matched pair or on
entirely absent keys. -/
theorem claim1_bijection (f : StackFrame) (n : String) (d : Int)
    (hInv : FrameInv f) (hnd : FrameNodup f) :
    ((dget f.name_to_dim n = none ∨ dget f.name_to_dim n = some d) →
      (dget f.dim_to_name d = none ∨ dget f.dim_to_name d = some n) →
      FrameInv (f.write n d)) ∧
    ((dget f.name_to_dim n = some d ∨
        (dget f.name_to_dim n = none ∧ dget f.dim_to_name d = none)) →
      FrameInv (f.free n d)) := by
  constructor
  · intro hn hd n' s'
    simp only [StackFrame.write]
    by_cases hn' : n' = n
    · subst hn'
      by_cases hs' : s' = d
      · subst hs'
        simp [dget_dset_self]
      · rw [dget_dset_self, dget_dset_ne _ _ _ _ hs']
        constructor
        · intro hc
          exact absurd (Option.some.inj hc) (fun he => hs' he.symm)
        · intro hc
          have := (hInv n' s').mpr hc
          rcases hn with hn0 | hn0 <;> rw [hn0] at this
          · cases this
          · exact absurd (Option.some.inj this).symm hs'
    · by_cases hs' : s' = d
      · subst hs'
        rw [dget_dset_self, dget_dset_ne _ _ _ _ hn']
        constructor
        · intro hc
          have := (hInv n' s').mp hc
          rcases hd with hd0 | hd0 <;> rw [hd0] at this
          · cases this
          · exact absurd (Option.some.inj this).symm hn'
        · intro hc
          exact absurd (Option.some.inj hc) (fun he => hn' he.symm)
      · rw [dget_dset_ne _ _ _ _ hn', dget_dset_ne _ _ _ _ hs']
        exact hInv n' s'
  · intro hcase n' s'
    simp only [StackFrame.free]
    rcases hcase with hm | ⟨hn0, hd0⟩
    · have hm' : dget f.dim_to_name d = some n := (hInv n d).mp hm
      by_cases hn' : n' = n
      · subst hn'
        rw [dget_dpop_self _ _ hnd.1]
        by_cases hs' : s' = d
        · subst hs'
          rw [dget_dpop_self _ _ hnd.2]
          simp
        · rw [dget_dpop_ne _ _ _ hs']
          constructor
          · intro hc; cases hc
          · intro hc
            have := (hInv n' s').mpr hc
            rw [hm] at this
            exact absurd (Option.some.inj this).symm hs'
      · by_cases hs' : s' = d
        · subst hs'
          rw [dget_dpop_self _ _ hnd.2, dget_dpop_ne _ _ _ hn']
          constructor
          · intro hc
            have := (hInv n' s').mp hc
            rw [hm'] at this
            exact absurd (Option.some.inj this).symm hn'
          · intro hc; cases hc
        · rw [dget_dpop_ne _ _ _ hn', dget_dpop_ne _ _ _ hs']
          exact hInv n' s'
    · rw [dpop_not_mem _ _ hn0, dpop_not_mem _ _ hd0]
      exact hInv n' s'

/-- Claim C1 counterexample: after write("a", -1) followed by write("a", -2)
on an empty frame, dim_to_name still maps -1 to "a" while name_to_dim maps
"a" to -2, so the maps are not exact inverses: the claimed invariant fails
under a rebinding write. -/
theorem claim1_counterexample :
    ¬ FrameInv ((emptyFrame.write ("a") (-1)).write ("a") (-2)) := by
  intro h
  have h1 := (h ("a") (-1)).mpr (by decide)
  exact absurd h1 (by decide)

theorem claim1_witness :
    FrameInv emptyFrame ∧ FrameNodup emptyFrame ∧
      FrameInv (emptyFrame.write ("a") (-1)) ∧
      FrameInv (emptyFrame.free ("a") (-1)) := by
  have hinv : FrameInv emptyFrame := by
    intro n s
    simp [emptyFrame, dget]
  have hnd : FrameNodup emptyFrame := by decide
  have h := claim1_bijection emptyFrame ("a") (-1) hinv hnd
  exact ⟨hinv, hnd, h.1 (Or.inl (by decide)) (Or.inl (by decide)),
    h.2 (Or.inr ⟨by decide, by decide⟩)⟩

/-- Claim C2 (amended).  In the fresh-slot search (no explicit slot
supplied), the candidate is decremented exactly until no frame in
current_env has ANY dim_to_name entry for the candidate slot, regardless of
which name that entry maps to: a slot already bound in some collision frame
is skipped even when it is bound to the very name being allocated (see
claim2_counterexample).  The returned slot is the first unoccupied value at
or below the search start, and every value strictly between it and the
start is occupied. -/
theorem claim2_search (σ : DimStack) (nm : Option String) (t : DimType)
    (n : String) (d : Int)
    (h : σ.gendim ⟨nm, t⟩ ⟨none, t⟩ = .ok (n, d)) :
    d = findFresh σ.envFrames
        (if t = DimType.VISIBLE then -1 else σ.first_available_dim.getD (-1)) ∧
    occupiedDim σ.envFrames d = false ∧
    d ≤ (if t = DimType.VISIBLE then -1 else σ.first_available_dim.getD (-1)) ∧
    (∀ e, d < e →
      e ≤ (if t = DimType.VISIBLE then -1 else σ.first_available_dim.getD (-1)) →
      occupiedDim σ.envFrames e = true) := by
  have hp := gendim_ok_parts σ ⟨nm, t⟩ ⟨none, t⟩ n d h
  have hd := hp.2.2.2.2.2 rfl
  have hs := findFresh_spec σ.envFrames
    (if t = DimType.VISIBLE then -1 else σ.first_available_dim.getD (-1))
  rw [← hd] at hs
  exact ⟨hd, hs.1, hs.2.1, hs.2.2⟩

/-- Claim C2 counterexample: in a stack whose global frame has dim_to_name
mapping slot -1 to the candidate name "x" itself (and no other bindings),
a fresh allocation for name "x" skips slot -1 and returns -2, although no
frame maps -1 to a DIFFERENT name; the claim says -1 should be accepted. -/
theorem claim2_counterexample :
    (⟨[⟨[], [(-1, "x")], [], [], false⟩], [0], some (-1), none⟩ : DimStack).gendim
        ⟨some ("x"), .LOCAL⟩ ⟨none, .LOCAL⟩ = .ok ("x", -2) ∧
    dget (DimStack.frame
        ⟨[⟨[], [(-1, "x")], [], [], false⟩], [0], some (-1), none⟩ 0).dim_to_name
        (-1) = some ("x") := by
  exact ⟨by decide, by decide⟩

theorem claim2_witness :
    (DimStack.init.gendim ⟨some ("x"), .LOCAL⟩ ⟨none, .LOCAL⟩ = .ok ("x", -1)) ∧
    ((-1 : Int) = findFresh DimStack.init.envFrames
        (if DimType.LOCAL = DimType.VISIBLE then -1
         else DimStack.init.first_available_dim.getD (-1)) ∧
      occupiedDim DimStack.init.envFrames (-1) = false ∧
      (-1 : Int) ≤ (if DimType.LOCAL = DimType.VISIBLE then -1
         else DimStack.init.first_available_dim.getD (-1)) ∧
      (∀ e, (-1 : Int) < e →
        e ≤ (if DimType.LOCAL = DimType.VISIBLE then -1
          else DimStack.init.first_available_dim.getD (-1)) →
        occupiedDim DimStack.init.envFrames e = true)) :=
  ⟨by decide, claim2_search DimStack.init (some ("x")) DimType.LOCAL ("x") (-1) (by decide)⟩

/-- Claim C3: every allocation on the fresh-generation path of request
(reached when lookup fails, with or without an explicit slot) returns a
slot that is at least MAX_DIM = -25; a candidate below the floor raises
instead of returning. -/
theorem claim3_floor (σ : DimStack) (req : Request)
    (res : Option String × Option Int) (σ' : DimStack)
    (h : σ.request req = .ok (res, σ'))
    (halloc : (lookupLoop σ.envFrames req.reqName req.reqDim).2.2 = false) :
    ∃ n d, res = (some n, some d) ∧ DimStack.MAX_DIM ≤ d := by
  rcases request_ok_elim σ req res σ' h with ⟨hf, _, _⟩ | ⟨_, n, d, hg, hres, _⟩
  · exact absurd (hf.symm.trans halloc) (by simp)
  · exact ⟨n, d, hres, (gendim_ok_parts _ _ _ _ _ hg).1⟩

theorem claim3_witness :
    (DimStack.init.request (.nameReq ⟨some ("x"), .LOCAL⟩ none) =
      .ok ((some ("x"), some (-1)),
        ⟨[⟨[(("x"), -1)], [(-1, "x")], [], [], false⟩], [0], some (-1), none⟩)) ∧
    ((lookupLoop DimStack.init.envFrames
        (Request.nameReq ⟨some ("x"), .LOCAL⟩ none).reqName
        (Request.nameReq ⟨some ("x"), .LOCAL⟩ none).reqDim).2.2 = false) ∧
    (∃ n d, ((some ("x"), some (-1)) : Option String × Option Int) = (some n, some d) ∧
      DimStack.MAX_DIM ≤ d) :=
  ⟨by decide, by decide,
    claim3_floor DimStack.init (.nameReq ⟨some ("x"), .LOCAL⟩ none)
      (some ("x"), some (-1))
      ⟨[⟨[(("x"), -1)], [(-1, "x")], [], [], false⟩], [0], some (-1), none⟩
      (by decide) (by decide)⟩

/-- Claim C4: a Visible-policy allocation succeeds only when the watermark
is a set integer and the returned slot is strictly greater than (strictly
closer to zero than) that watermark; a candidate at or below the watermark
raises instead of being returned. -/
theorem claim4_visible (σ : DimStack) (nr : NameRequest) (dopt : Option Int)
    (n : String) (d : Int)
    (h : σ.gendim nr ⟨dopt, .VISIBLE⟩ = .ok (n, d)) :
    ∃ fad, σ.first_available_dim = some fad ∧ fad < d :=
  (gendim_ok_parts σ nr ⟨dopt, .VISIBLE⟩ n d h).2.2.1 rfl

theorem claim4_witness :
    ((⟨[emptyFrame], [0], some (-3), none⟩ : DimStack).gendim
        ⟨some ("x"), .VISIBLE⟩ ⟨some (-1), .VISIBLE⟩ = .ok ("x", -1)) ∧
    (∃ fad, (⟨[emptyFrame], [0], some (-3), none⟩ : DimStack).first_available_dim =
        some fad ∧ fad < -1) :=
  ⟨by decide,
    claim4_visible ⟨[emptyFrame], [0], some (-3), none⟩
      ⟨some ("x"), .VISIBLE⟩ (some (-1)) ("x") (-1) (by decide)⟩

/-- When no name is supplied to _gendim and an explicit dim is, the fresh
name is the fixed prefix followed by the negation of the dim. -/
theorem gendim_default_name (σ : DimStack) (tn t : DimType) (d0 : Int)
    (n : String) (d : Int)
    (h : σ.gendim ⟨none, tn⟩ ⟨some d0, t⟩ = .ok (n, d)) :
    n = "_pyro_dim_" ++ toString (-d0) :=
  (gendim_tail_ok σ t ("_pyro_dim_" ++ toString (-d0)) d0 n d h).1

/-- Claim C7: a request that reaches the allocation phase with no explicit
name (and, as the negative slots of this allocator require, an explicit
negative slot) returns the synthesized default name: the fixed prefix
_pyro_dim_ followed by the slot's absolute value, together with the slot
itself; the name is a function of the slot, so identical slots always
yield identical default names. -/
theorem claim7_default_name (σ : DimStack) (t : DimType) (d0 : Int)
    (res : Option String × Option Int) (σ' : DimStack)
    (h : σ.request (.dimReq none ⟨some d0, t⟩) = .ok (res, σ'))
    (halloc : (lookupLoop σ.envFrames
      (Request.dimReq none ⟨some d0, t⟩).reqName
      (Request.dimReq none ⟨some d0, t⟩).reqDim).2.2 = false)
    (hneg : d0 < 0) :
    res = (some ("_pyro_dim_" ++ toString d0.natAbs), some d0) := by
  rcases request_ok_elim σ (.dimReq none ⟨some d0, t⟩) res σ' h with
    ⟨hf, _, _⟩ | ⟨_, n, d, hg, hres, _⟩
  · exact absurd (hf.symm.trans halloc) (by simp)
  · have hn : n = "_pyro_dim_" ++ toString (-d0) := gendim_default_name σ t t d0 n d hg
    have hd : d = d0 := (gendim_ok_parts _ _ _ _ _ hg).2.2.2.2.1 d0 rfl
    rw [hres, hn, hd, toString_neg_of_neg d0 hneg]

theorem claim7_witness :
    (DimStack.init.request (.dimReq none ⟨some (-3), .GLOBAL⟩) =
      .ok ((some ("_pyro_dim_3"), some (-3)),
        ⟨[⟨[(("_pyro_dim_3"), -3)], [(-3, "_pyro_dim_3")], [], [], false⟩],
          [0], some (-1), none⟩)) ∧
    (((some ("_pyro_dim_3"), some (-3)) : Option String × Option Int) =
      (some ("_pyro_dim_" ++ toString (Int.natAbs (-3))), some (-3))) :=
  ⟨by decide,
    claim7_default_name DimStack.init DimType.GLOBAL (-3)
      (some ("_pyro_dim_3"), some (-3))
      ⟨[⟨[(("_pyro_dim_3"), -3)], [(-3, "_pyro_dim_3")], [], [], false⟩],
        [0], some (-1), none⟩
      (by decide) (by decide) (by decide)⟩

/-- Claim C8: the unset watermark (first_available_dim = None) is reachable
through set_first_available_dim (its assertion accepts None and installs
it), and a request under the Visible policy that reaches the
fresh-allocation phase while the watermark is unset can never succeed: the
validation step comparing the integer candidate against the unset watermark
fails (a TypeError in the source), so the call returns an error. -/
theorem claim8_unset_watermark (σ : DimStack) (req : Request)
    (hfad : σ.first_available_dim = none) (hvis : req.policy = .VISIBLE)
    (hnf : (lookupLoop σ.envFrames req.reqName req.reqDim).2.2 = false) :
    (σ.set_first_available_dim none =
      .ok (σ.first_available_dim, { σ with first_available_dim := none })) ∧
    exceptOk (σ.request req) = false := by
  constructor
  · rfl
  · cases hr : σ.request req with
    | error e => rfl
    | ok p =>
      obtain ⟨res, σ'⟩ := p
      rcases request_ok_elim σ req res σ' hr with ⟨hf, _, _⟩ | ⟨_, n, d, hg, _, _⟩
      · exact absurd (hf.symm.trans hnf) (by simp)
      · rcases (gendim_ok_parts _ _ _ _ _ hg).2.2.1 hvis with ⟨fad, hfd, _⟩
        rw [hfad] at hfd
        cases hfd

theorem claim8_witness :
    ((⟨[emptyFrame], [0], none, none⟩ : DimStack).set_first_available_dim none =
      .ok ((⟨[emptyFrame], [0], none, none⟩ : DimStack).first_available_dim,
        ⟨[emptyFrame], [0], none, none⟩)) ∧
    exceptOk ((⟨[emptyFrame], [0], none, none⟩ : DimStack).request
      (.dimReq none ⟨some (-2), .VISIBLE⟩)) = false :=
  claim8_unset_watermark ⟨[emptyFrame], [0], none, none⟩
    (.dimReq none ⟨some (-2), .VISIBLE⟩) (by decide) (by decide) (by decide)

/-- Claim C9: pop removes and returns the top frame when the stack has at
least two frames (keeping the bottom element, so the global frame at index
0 is never removed), and fails with the programmer-error assertion exactly
when the stack has length 1; moreover every operation (push, a successful
pop, request, set_first_available_dim) leaves the stack length at least 1.
-/
theorem claim9_pop (σ : DimStack) :
    (2 ≤ σ.stack.length →
      σ.pop = .ok (σ.frame σ.currentId, { σ with stack := σ.stack.dropLast }) ∧
      1 ≤ σ.stack.dropLast.length ∧
      σ.stack.dropLast.headD 0 = σ.stack.headD 0) ∧
    (σ.stack.length = 1 → σ.pop = .error .assertionError) ∧
    (∀ f, (σ.push f).stack.length = σ.stack.length + 1) ∧
    (∀ g σ2, σ.pop = .ok (g, σ2) →
      σ2.stack.length + 1 = σ.stack.length ∧ 1 ≤ σ2.stack.length) ∧
    (∀ req res σ2, σ.request req = .ok (res, σ2) → σ2.stack = σ.stack) ∧
    (∀ dopt old σ2, σ.set_first_available_dim dopt = .ok (old, σ2) →
      σ2.stack = σ.stack) := by
  refine ⟨?_, ?_, ?_, ?_, ?_, ?_⟩
  · intro h2
    refine ⟨?_, ?_, ?_⟩
    · unfold DimStack.pop
      rw [if_pos (by omega)]
    · rw [List.length_dropLast]
      omega
    · rcases hs : σ.stack with _ | ⟨a, t2⟩
      · rw [hs] at h2; simp at h2
      · rcases ht : t2 with _ | ⟨b, t3⟩
        · rw [hs, ht] at h2; simp at h2
        · simp
  · intro h1
    unfold DimStack.pop
    rw [if_neg (by omega)]
  · intro f
    simp [DimStack.push]
  · intro g σ2 h
    unfold DimStack.pop at h
    split_ifs at h with hc
    simp only [Except.ok.injEq, Prod.mk.injEq] at h
    rw [← h.2]
    simp only [List.length_dropLast]
    omega
  · intro req res σ2 h
    rcases request_ok_elim σ req res σ2 h with ⟨_, _, rfl⟩ | ⟨_, n, d, _, _, rfl⟩
    · rfl
    · exact commit_stack σ n d req.policy
  · intro dopt old σ2 h
    unfold DimStack.set_first_available_dim at h
    split_ifs at h with hc
    simp only [Except.ok.injEq, Prod.mk.injEq] at h
    rw [← h.2]

theorem claim9_witness :
    ((DimStack.init.push emptyFrame).pop =
      .ok (emptyFrame, ⟨[emptyFrame, emptyFrame], [0], some (-1), none⟩)) ∧
    DimStack.init.pop = .error .assertionError := by
  constructor
  · have h := ((claim9_pop (DimStack.init.push emptyFrame)).1 (by decide)).1
    exact h.trans (by decide)
  · exact (claim9_pop DimStack.init).2.1 (by decide)

theorem WF.iter_parents_lt (σ : DimStack) (h : WF σ) (i : Nat)
    (hi : i < σ.heap.length) :
    ∀ j ∈ (σ.frame i).iter_parents, j < σ.heap.length :=
  (h.2.2 _ (frame_mem_heap σ i hi)).2

theorem envIds_lt (σ : DimStack) (hwf : WF σ) :
    ∀ i ∈ σ.envIds, i < σ.heap.length := by
  intro i hi
  rcases List.mem_cons.mp hi with rfl | hi2
  · exact WF.globalId_lt σ hwf
  rcases List.mem_cons.mp hi2 with rfl | hi3
  · exact WF.currentId_lt σ hwf
  rcases List.mem_append.mp hi3 with hi4 | hi4
  · exact WF.iter_parents_lt σ hwf σ.currentId (WF.currentId_lt σ hwf) i hi4
  · exact WF.parents_lt σ hwf σ.currentId (WF.currentId_lt σ hwf) i hi4

/-- Claim C10: push followed immediately by pop is a round trip: after
push(f) the current frame is f; pop returns f; afterwards the current
frame reference and value are those before the push, and current_env is
exactly what it was before the push, so the popped frame's bindings are no
longer visible. -/
theorem claim10_push_pop (σ : DimStack) (f : StackFrame) (hwf : WF σ) :
    ((σ.push f).frame (σ.push f).currentId = f) ∧
    ((σ.push f).pop = .ok (f, { σ with heap := σ.heap ++ [f] })) ∧
    (({ σ with heap := σ.heap ++ [f] } : DimStack).currentId = σ.currentId) ∧
    (({ σ with heap := σ.heap ++ [f] } : DimStack).frame σ.currentId =
      σ.frame σ.currentId) ∧
    (({ σ with heap := σ.heap ++ [f] } : DimStack).envFrames = σ.envFrames) := by
  have ha : (σ.push f).currentId = σ.heap.length := by
    simp [DimStack.push, DimStack.currentId, List.getLastD_concat]
  have hfr : (σ.push f).frame (σ.push f).currentId = f := by
    rw [ha]
    simp only [DimStack.push, DimStack.frame, List.getD_eq_getElem?_getD,
      List.getElem?_concat_length]
    rfl
  have hext : ∀ i, i < σ.heap.length →
      ({ σ with heap := σ.heap ++ [f] } : DimStack).frame i = σ.frame i := by
    intro i hi
    simp only [DimStack.frame]
    exact List.getD_append _ _ _ _ hi
  have hcur : ({ σ with heap := σ.heap ++ [f] } : DimStack).frame σ.currentId =
      σ.frame σ.currentId := hext _ (WF.currentId_lt σ hwf)
  refine ⟨hfr, ?_, rfl, hcur, ?_⟩
  · have hlen : 0 < σ.stack.length := List.length_pos.mpr hwf.1
    have hcond : 1 < (σ.push f).stack.length := by
      simp [DimStack.push]
      omega
    unfold DimStack.pop
    rw [if_pos hcond, hfr]
    have hst : { σ.push f with stack := (σ.push f).stack.dropLast } =
        ({ σ with heap := σ.heap ++ [f] } : DimStack) := by
      simp [DimStack.push, List.dropLast_concat]
    rw [hst]
  · have hids : ({ σ with heap := σ.heap ++ [f] } : DimStack).envIds = σ.envIds := by
      have hcur2 : ({ σ with heap := σ.heap ++ [f] } : DimStack).frame
          (σ.stack.getLastD 0) = σ.frame (σ.stack.getLastD 0) := hcur
      simp only [DimStack.envIds, DimStack.globalId, DimStack.currentId, hcur2]
    unfold DimStack.envFrames
    rw [hids]
    exact List.map_congr_left (fun i hi => hext i (envIds_lt σ hwf i hi))

theorem claim10_witness :
    ((DimStack.init.push ⟨[(("y"), -7)], [(-7, "y")], [], [], false⟩).frame
      (DimStack.init.push ⟨[(("y"), -7)], [(-7, "y")], [], [], false⟩).currentId =
      ⟨[(("y"), -7)], [(-7, "y")], [], [], false⟩) ∧
    ((DimStack.init.push ⟨[(("y"), -7)], [(-7, "y")], [], [], false⟩).pop =
      .ok (⟨[(("y"), -7)], [(-7, "y")], [], [], false⟩,
        ⟨[emptyFrame, ⟨[(("y"), -7)], [(-7, "y")], [], [], false⟩],
          [0], some (-1), none⟩)) ∧
    ((⟨[emptyFrame, ⟨[(("y"), -7)], [(-7, "y")], [], [], false⟩],
        [0], some (-1), none⟩ : DimStack).currentId = DimStack.init.currentId) ∧
    ((⟨[emptyFrame, ⟨[(("y"), -7)], [(-7, "y")], [], [], false⟩],
        [0], some (-1), none⟩ : DimStack).frame DimStack.init.currentId =
      DimStack.init.frame DimStack.init.currentId) ∧
    ((⟨[emptyFrame, ⟨[(("y"), -7)], [(-7, "y")], [], [], false⟩],
        [0], some (-1), none⟩ : DimStack).envFrames = DimStack.init.envFrames) :=
  claim10_push_pop DimStack.init ⟨[(("y"), -7)], [(-7, "y")], [], [], false⟩
    (by decide)

/-- Claim C6: when request allocates a fresh binding, the frames written
are exactly the policy-chosen ones: under Global or Visible only the
global frame is written (every frame other than the global one is
unchanged); under Local the current frame is written, plus every frame in
current_frame.parents when current_frame.keep is true, and every frame not
in that set is unchanged; when lookup succeeds no frame changes at all. -/
theorem claim6_commit_targets (σ : DimStack) (req : Request)
    (res : Option String × Option Int) (σ' : DimStack) (hwf : WF σ)
    (h : σ.request req = .ok (res, σ')) :
    ((lookupLoop σ.envFrames req.reqName req.reqDim).2.2 = true → σ' = σ) ∧
    ((lookupLoop σ.envFrames req.reqName req.reqDim).2.2 = false →
      ∃ n d, res = (some n, some d) ∧
        (req.policy ≠ DimType.LOCAL →
          σ'.frame σ.globalId = (σ.frame σ.globalId).write n d ∧
          ∀ i, i ≠ σ.globalId → σ'.frame i = σ.frame i) ∧
        (req.policy = DimType.LOCAL →
          σ'.frame σ.currentId = (σ.frame σ.currentId).write n d ∧
          ((σ.frame σ.currentId).keep = true →
            ∀ j ∈ (σ.frame σ.currentId).parents, σ'.frame j = (σ.frame j).write n d) ∧
          (∀ i, i ≠ σ.currentId →
            ((σ.frame σ.currentId).keep = true → i ∉ (σ.frame σ.currentId).parents) →
            σ'.frame i = σ.frame i))) := by
  rcases request_ok_elim σ req res σ' h with ⟨hf, _, rfl⟩ | ⟨hnf, n, d, hg, hres, rfl⟩
  · exact ⟨fun _ => rfl, fun hc => absurd (hf.symm.trans hc) (by simp)⟩
  · refine ⟨fun hc => absurd (hnf.symm.trans hc) (by simp), fun _ => ⟨n, d, hres, ?_, ?_⟩⟩
    · intro hne
      have hw : σ.writeIds req.policy = [σ.globalId] := by
        simp [DimStack.writeIds, hne]
      unfold DimStack.commit
      rw [hw]
      constructor
      · exact frame_foldl_mem _ σ n d _ (by simp) (WF.globalId_lt σ hwf)
      · intro i hi
        exact frame_foldl_not_mem _ σ n d i (by simp [hi])
    · intro hloc
      have hw : σ.writeIds req.policy = σ.currentId ::
          (if (σ.frame σ.currentId).keep then (σ.frame σ.currentId).parents
           else []) := by
        simp [DimStack.writeIds, hloc]
      unfold DimStack.commit
      rw [hw]
      refine ⟨?_, ?_, ?_⟩
      · exact frame_foldl_mem _ σ n d _ (by simp) (WF.currentId_lt σ hwf)
      · intro hkeep j hj
        refine frame_foldl_mem _ σ n d _ ?_
          (WF.parents_lt σ hwf σ.currentId (WF.currentId_lt σ hwf) j hj)
        simp [hkeep, hj]
      · intro i hic hikeep
        refine frame_foldl_not_mem _ σ n d i ?_
        simp only [List.mem_cons, not_or]
        refine ⟨hic, ?_⟩
        by_cases hk : (σ.frame σ.currentId).keep
        · simp [hk]
          exact hikeep hk
        · simp [hk]

theorem claim6_witness :
    (DimStack.init.request (.nameReq ⟨some ("x"), .GLOBAL⟩ none) =
      .ok ((some ("x"), some (-1)),
        ⟨[⟨[(("x"), -1)], [(-1, "x")], [], [], false⟩], [0], some (-1), none⟩)) ∧
    ((lookupLoop DimStack.init.envFrames
        (Request.nameReq ⟨some ("x"), .GLOBAL⟩ none).reqName
        (Request.nameReq ⟨some ("x"), .GLOBAL⟩ none).reqDim).2.2 = false) ∧
    ((⟨[⟨[(("x"), -1)], [(-1, "x")], [], [], false⟩], [0], some (-1), none⟩ :
        DimStack).frame DimStack.init.globalId =
      (DimStack.init.frame DimStack.init.globalId).write ("x") (-1)) := by
  refine ⟨by decide, by decide, ?_⟩
  have h := claim6_commit_targets DimStack.init (.nameReq ⟨some ("x"), .GLOBAL⟩ none)
    (some ("x"), some (-1))
    ⟨[⟨[(("x"), -1)], [(-1, "x")], [], [], false⟩], [0], some (-1), none⟩
    (by decide) (by decide)
  rcases h.2 (by decide) with ⟨n, d, hres, hng, _⟩
  have hnd : n = "x" ∧ d = -1 := by
    simp only [Prod.mk.injEq, Option.some.injEq] at hres
    exact ⟨hres.1.symm, hres.2.symm⟩
  rcases hnd with ⟨rfl, rfl⟩
  exact (hng (by decide)).1

/-- Claim C5: resolution is idempotent: if a name-side request (name
present, slot side absent) succeeds, then repeating the identical request
on the resulting state returns the same (name, slot) pair and leaves the
state untouched — the second call resolves by lookup in the current
environment. -/
theorem claim5_idempotent (σ : DimStack) (nm : String) (t : DimType)
    (res : Option String × Option Int) (σ' : DimStack) (hwf : WF σ)
    (h : σ.request (.nameReq ⟨some nm, t⟩ none) = .ok (res, σ')) :
    σ'.request (.nameReq ⟨some nm, t⟩ none) = .ok (res, σ') := by
  rcases request_ok_elim σ _ res σ' h with ⟨_, _, rfl⟩ | ⟨hnf, n, d, hg, hres, rfl⟩
  · exact h
  · have hn : n = nm := (gendim_ok_parts _ _ _ _ _ hg).2.2.2.1 nm rfl
    subst hn
    subst hres
    -- facts from the failed first lookup
    have hnf2 : (lookupLoop σ.envFrames (some n) none).2.2 = false := hnf
    rcases hL : lookupLoop σ.envFrames (some n) none with ⟨a, b, c⟩
    rw [hL] at hnf2
    simp only at hnf2
    subst hnf2
    have hall := (lookupLoop_false _ _ _ _ _ hL).2.2
    have habs : ∀ f ∈ σ.envFrames, dmem f.name_to_dim n = false := by
      intro f hf
      rw [← read_found_by_name]
      exact hall f hf
    have hgmem : σ.frame σ.globalId ∈ σ.envFrames := by
      refine List.mem_map_of_mem _ ?_
      simp [DimStack.envIds]
    have hgabs : dmem (σ.frame σ.globalId).name_to_dim n = false := habs _ hgmem
    -- the committed state
    set P := (Request.nameReq ⟨some n, t⟩ none).policy with hP0
    set σ2 := σ.commit n d P with hσ2
    have hcommit : σ2 = (σ.writeIds P).foldl (fun s i => s.writeAt i n d) σ := rfl
    have hdecomp : σ2.envFrames =
        σ2.frame σ.globalId :: σ2.frame σ.currentId ::
          ((σ.frame σ.currentId).iter_parents ++
            (σ.frame σ.currentId).parents).map σ2.frame := by
      unfold DimStack.envFrames
      rw [hσ2, commit_envIds]
      simp [DimStack.envIds]
    have hL2 : lookupLoop σ2.envFrames (some n) none = (some n, some d, true) := by
      by_cases hgw : σ.globalId ∈ σ.writeIds P
      · have hgw2 : σ2.frame σ.globalId = (σ.frame σ.globalId).write n d := by
          rw [hcommit]
          exact frame_foldl_mem _ σ n d _ hgw (WF.globalId_lt σ hwf)
        have hget : dget (σ2.frame σ.globalId).name_to_dim n = some d := by
          rw [hgw2]
          simp [StackFrame.write, dget_dset_self]
        rw [hdecomp]
        exact lookupLoop_cons_found_name _ _ _ _ hget
      · have hgu : σ2.frame σ.globalId = σ.frame σ.globalId := by
          rw [hcommit]
          exact frame_foldl_not_mem _ σ n d _ hgw
        have hpass : ((σ2.frame σ.globalId).read (some n) none).2.2 = false := by
          rw [read_found_by_name, hgu]
          exact hgabs
        have hPloc : P = DimType.LOCAL := by
          by_contra hne
          have hw : σ.writeIds P = [σ.globalId] := by
            simp [DimStack.writeIds, hne]
          rw [hw] at hgw
          simp at hgw
        have hcw : σ.currentId ∈ σ.writeIds P := by
          simp [DimStack.writeIds, hPloc]
        have hcur2 : σ2.frame σ.currentId = (σ.frame σ.currentId).write n d := by
          rw [hcommit]
          exact frame_foldl_mem _ σ n d _ hcw (WF.currentId_lt σ hwf)
        have hgetc : dget (σ2.frame σ.currentId).name_to_dim n = some d := by
          rw [hcur2]
          simp [StackFrame.write, dget_dset_self]
        rw [hdecomp, lookupLoop_cons_pass _ _ _ _ hpass]
        exact lookupLoop_cons_found_name _ _ _ _ hgetc
    have hL3 : lookupLoop σ2.envFrames
        (Request.nameReq ⟨some n, t⟩ none).reqName
        (Request.nameReq ⟨some n, t⟩ none).reqDim = (some n, some d, true) := hL2
    unfold DimStack.request
    rw [hL3]

theorem claim5_witness :
    WF DimStack.init ∧
    (DimStack.init.request (.nameReq ⟨some ("x"), .LOCAL⟩ none) =
      .ok ((some ("x"), some (-1)),
        ⟨[⟨[(("x"), -1)], [(-1, "x")], [], [], false⟩], [0], some (-1), none⟩)) ∧
    ((⟨[⟨[(("x"), -1)], [(-1, "x")], [], [], false⟩], [0], some (-1), none⟩ :
        DimStack).request (.nameReq ⟨some ("x"), .LOCAL⟩ none) =
      .ok ((some ("x"), some (-1)),
        ⟨[⟨[(("x"), -1)], [(-1, "x")], [], [], false⟩], [0], some (-1), none⟩)) :=
  ⟨by decide, by decide,
    claim5_idempotent DimStack.init ("x") DimType.LOCAL
      (some ("x"), some (-1))
      ⟨[⟨[(("x"), -1)], [(-1, "x")], [], [], false⟩], [0], some (-1), none⟩
      (by decide) (by decide)⟩
